import Mathlib

/-!
Shallow embedding of the SurfaceSlabEditor scripts.

The four Python scripts (`modify_c_lattice.py`, `restore_z.py`, `shift_c_direct.py`,
`translate_c.py`) are translated into Lean functions, one namespace per script:

* `ML` — modify_c_lattice.py  (LatticeCShift)
* `RZ` — restore_z.py         (AxisRestore)
* `SD` — shift_c_direct.py    (DirectCShift)
* `TC` — translate_c.py       (PeriodicTranslate)

Modelling conventions:

* Python floats are modelled as exact rationals (`ℚ`); `x % 1.0` becomes
  `pymod x 1 = x - ⌊x⌋`, the exact-arithmetic semantics of Python's modulo for a
  positive divisor.
* A script invocation is a function from the input lines (the contents of the
  input file, one entry per line, without the terminating newline characters,
  exactly as `readlines` produces up to those newlines) to
  `Except Err (List String)`: `.ok out` means the script writes the lines `out`
  (each followed by one newline) and exits 0, `.error e` means it terminates
  with a non-zero status before writing any output (both `sys.exit(1)` calls
  and uncaught exceptions such as IndexError are modelled as `.error`).
* `str.split()` / `str.strip()` / `str.isdigit()` are modelled over the
  whitespace and digit characters recognised by `Char.isWhitespace` /
  `Char.isDigit`; exotic Unicode whitespace and digit characters accepted by
  Python are outside the model, as are underscore separators in numeric
  literals and the `inf`/`nan` float spellings.
-/

/-- Python `str.strip()`: remove leading and trailing whitespace. -/
def pyStrip (s : String) : String :=
  String.mk ((s.data.dropWhile Char.isWhitespace).reverse.dropWhile Char.isWhitespace).reverse

/-- Python `str.rstrip()`: remove trailing whitespace. -/
def pyRstrip (s : String) : String :=
  String.mk (s.data.reverse.dropWhile Char.isWhitespace).reverse

/-- Python `str.rstrip("\n")`: remove trailing newline characters only. -/
def pyRstripNl (s : String) : String :=
  String.mk (s.data.reverse.dropWhile (fun c => c == '\n')).reverse

/-- Accumulating tokenizer behind `pySplit`: walks the characters, collecting
the current token in reverse in the accumulator. -/
def tokensAux : List Char → List Char → List String
  | [], acc => if acc.isEmpty then [] else [String.mk acc.reverse]
  | c :: cs, acc =>
    if c.isWhitespace then
      if acc.isEmpty then tokensAux cs [] else String.mk acc.reverse :: tokensAux cs []
    else tokensAux cs (c :: acc)

/-- Python `str.split()` with no arguments: split on whitespace runs, dropping
empty tokens. -/
def pySplit (s : String) : List String := tokensAux s.data []

/-- Python `str.isdigit()`: non-empty and every character a digit. -/
def pyIsdigit (s : String) : Bool := !s.data.isEmpty && s.data.all Char.isDigit

/-- Value of a list of decimal digit characters, most significant first. -/
def digitsToNat (cs : List Char) : ℕ :=
  cs.foldl (fun a c => a * 10 + (c.toNat - 48)) 0

/-- Python `int(token)`: optional sign, then decimal digits (surrounding
whitespace is stripped). -/
def pyInt? (s : String) : Option ℤ :=
  match (pyStrip s).data with
  | '+' :: ds => if !ds.isEmpty && ds.all Char.isDigit then some (digitsToNat ds : ℤ) else none
  | '-' :: ds => if !ds.isEmpty && ds.all Char.isDigit then some (-(digitsToNat ds : ℤ)) else none
  | ds => if !ds.isEmpty && ds.all Char.isDigit then some (digitsToNat ds : ℤ) else none

/-- Mantissa of a float literal: `123`, `123.`, `.5`, `1.25`. -/
def parseMantissa (cs : List Char) : Option ℚ :=
  let ip := cs.takeWhile Char.isDigit
  let rest := cs.dropWhile Char.isDigit
  match rest with
  | [] => if ip.isEmpty then none else some (digitsToNat ip : ℚ)
  | '.' :: frac =>
    if frac.all Char.isDigit && (!ip.isEmpty || !frac.isEmpty) then
      some ((digitsToNat ip : ℚ) + (digitsToNat frac : ℚ) / ((10 : ℚ) ^ frac.length))
    else none
  | _ => none

/-- Signed exponent of a float literal. -/
def parseExpPart (cs : List Char) : Option ℤ :=
  match cs with
  | '+' :: ds => if !ds.isEmpty && ds.all Char.isDigit then some (digitsToNat ds : ℤ) else none
  | '-' :: ds => if !ds.isEmpty && ds.all Char.isDigit then some (-(digitsToNat ds : ℤ)) else none
  | ds => if !ds.isEmpty && ds.all Char.isDigit then some (digitsToNat ds : ℤ) else none

/-- Float literal without the leading sign: mantissa with optional exponent. -/
def pyFloatUnsigned (cs : List Char) : Option ℚ :=
  let mant := cs.takeWhile (fun ch => ch != 'e' && ch != 'E')
  let rest := cs.dropWhile (fun ch => ch != 'e' && ch != 'E')
  match rest with
  | [] => parseMantissa mant
  | _ :: ecs =>
    match parseMantissa mant, parseExpPart ecs with
    | some m, some e => some (m * (10 : ℚ) ^ e)
    | _, _ => none

/-- Python `float(token)`, restricted to finite decimal literals, with the value
read exactly into `ℚ`. -/
def pyFloat? (s : String) : Option ℚ :=
  match (pyStrip s).data with
  | '+' :: r => pyFloatUnsigned r
  | '-' :: r => (pyFloatUnsigned r).map (fun m => -m)
  | r => pyFloatUnsigned r

/-- Python `a % b` on numbers: `a - b * ⌊a / b⌋` (exact-arithmetic semantics;
for `b = 1` this is the fractional part). -/
def pymod (a b : ℚ) : ℚ := a - b * ⌊a / b⌋

/-- Round to the nearest integer, ties to the even integer — the rounding used
when a value is printed with a fixed number of decimals. -/
def roundHalfEven (q : ℚ) : ℤ :=
  let f := ⌊q⌋
  if q - f < 1 / 2 then f
  else if 1 / 2 < q - f then f + 1
  else if f % 2 = 0 then f else f + 1

/-- Exactly `p` decimal digit characters of `m` (`m < 10 ^ p`), most significant
first, left-padded with zeros. -/
def natDigitsList : ℕ → ℕ → List Char
  | 0, _ => []
  | p + 1, m => natDigitsList p (m / 10) ++ [Char.ofNat (48 + m % 10)]

/-- String of exactly `p` decimal digits of `m`. -/
def natDigitsPadded (p m : ℕ) : String := String.mk (natDigitsList p m)

/-- The numeral produced by Python's `f"{q:.p f}"` before width padding:
optional minus sign, integer digits, a point, exactly `p` fractional digits. -/
def fixedNumeral (p : ℕ) (q : ℚ) : String :=
  let n := (roundHalfEven (q * (10 : ℚ) ^ p)).natAbs
  (if q < 0 then "-" else "") ++ (toString (n / 10 ^ p) ++ ("." ++ natDigitsPadded p (n % 10 ^ p)))

/-- Right-justify `s` in a field of width `w` (no truncation when longer). -/
def padLeft (w : ℕ) (s : String) : String :=
  String.mk (List.replicate (w - s.length) ' ') ++ s

/-- Python `f"{q:w.p f}"`: fixed-point numeral right-justified in width `w`. -/
def formatFixed (w p : ℕ) (q : ℚ) : String := padLeft w (fixedNumeral p q)

/-- Failure conditions of the scripts (each aborts the run before output). -/
inductive Err where
  | tooShort
  | latticeParse
  | cNot3
  | badCoordSystem
  | parseCounts
  | notEnoughCoords (expected : ℤ) (found : ℤ)
  | coordParse
  | atomIndexRange (n : ℕ)
  | indexError
  | zeroCVector
  | shapeMismatch
  deriving Repr, DecidableEq

/-- Reading `lines[i]` in Python: an uncaught IndexError aborts the run. -/
def lineAt (lines : List String) (i : ℕ) : Except Err String :=
  match lines[i]? with
  | some l => .ok l
  | none => .error .indexError

/-- A list comprehension over a fallible element parser: the first failure
aborts the whole comprehension. -/
def optionMapList {α β : Type} (f : α → Option β) : List α → Option (List β)
  | [] => some []
  | a :: l =>
    match f a, optionMapList f l with
    | some b, some bs => some (b :: bs)
    | _, _ => none

/-- Sequencing of fallible per-element processing in a loop that appends to an
output list; the first error aborts the run. -/
def exceptMapList {α β : Type} (f : α → Except Err β) : List α → Except Err (List β)
  | [] => .ok []
  | a :: l =>
    match f a with
    | .error e => .error e
    | .ok b =>
      match exceptMapList f l with
      | .error e => .error e
      | .ok bs => .ok (b :: bs)

namespace ML

/-- modify_c_lattice.py lines 4-9: Profile A rendering of a vector. -/
def format_vector (v : List ℚ) : String :=
  " " ++ String.intercalate " " (v.map (formatFixed 15 10))

/-- modify_c_lattice.py lines 11-16: line-5 sniffing (requires at least one
token, every token all digits). -/
def is_atom_count_line (line : String) : Bool :=
  let tokens := pySplit (pyStrip line)
  !tokens.isEmpty && tokens.all pyIsdigit

/-- modify_c_lattice.py line 73: the run proceeds only when the coordinate
system line is non-empty and starts (case-insensitively) with c or k. -/
def coordOk (s : String) : Bool :=
  match s.data with
  | [] => false
  | c :: _ => c.toLower == 'c' || c.toLower == 'k'

/-- modify_c_lattice.py lines 80-92: one coordinate line is either re-rendered
from its first three float tokens or preserved verbatim. -/
def processCoordLine (line : String) : String :=
  let tokens := pySplit (pyStrip line)
  if tokens.length < 3 then pyRstripNl line
  else
    match pyFloat? (tokens.getD 0 ""), pyFloat? (tokens.getD 1 ""), pyFloat? (tokens.getD 2 "") with
    | some a, some b, some c => ML.format_vector [a, b, c]
    | _, _, _ => pyRstripNl line

/-- modify_c_lattice.py lines 36-38: a lattice line is split and every token
parsed as a float. -/
def parseLatVec (l : String) : Option (List ℚ) := optionMapList pyFloat? (pySplit l)

/-- modify_c_lattice.py lines 72-99: coordinate-system validation, then output
(header block followed by every remaining line re-rendered). -/
def finishRun (lines : List String) (coordsStart : ℕ) (headerBlock : List String)
    (coordL : String) : Except Err (List String) :=
  if !ML.coordOk coordL then .error .badCoordSystem
  else .ok (headerBlock ++ (lines.drop coordsStart).map ML.processCoordLine)

/-- modify_c_lattice.py `main` (lines 18-99). -/
def run (lines : List String) (delta_z : ℚ) : Except Err (List String) :=
  if lines.length < 7 then .error .tooShort
  else
    match ML.parseLatVec (pyStrip (lines.getD 2 "")), ML.parseLatVec (pyStrip (lines.getD 3 "")),
        ML.parseLatVec (pyStrip (lines.getD 4 "")) with
    | some a, some b, some c =>
      if c.length ≠ 3 then .error .cNot3
      else
        let header := pyRstripNl (lines.getD 0 "")
        let scaling := pyRstripNl (lines.getD 1 "")
        let lat0 := ML.format_vector a
        let lat1 := ML.format_vector b
        let lat2 := ML.format_vector [0, 0, c.getD 2 0 + delta_z]
        if ML.is_atom_count_line (lines.getD 5 "") then
          ML.finishRun lines 7
            [header, scaling, lat0, lat1, lat2,
             String.intercalate " " (pySplit header), pyStrip (lines.getD 5 ""),
             pyStrip (lines.getD 6 "")]
            (pyStrip (lines.getD 6 ""))
        else
          match lineAt lines 7 with
          | .error e => .error e
          | .ok l7 =>
            ML.finishRun lines 8
              [header, scaling, lat0, lat1, lat2,
               pyStrip (lines.getD 5 ""), pyStrip (lines.getD 6 ""), pyStrip l7]
              (pyStrip l7)
    | _, _, _ => .error .latticeParse

end ML

namespace RZ

/-- restore_z.py lines 4-22: a line with exactly three float tokens, read as
(z, x, y), is re-rendered as (x, y, z) under Profile A; every other line is
returned with its trailing whitespace stripped. -/
def reorder_and_format_line (line : String) : String :=
  let parts := pySplit line
  if parts.length ≠ 3 then pyRstrip line
  else
    match pyFloat? (parts.getD 0 ""), pyFloat? (parts.getD 1 ""), pyFloat? (parts.getD 2 "") with
    | some z, some x, some y =>
      " " ++ formatFixed 15 10 x ++ " " ++ formatFixed 15 10 y ++ " " ++ formatFixed 15 10 z
    | _, _, _ => pyRstrip line

/-- restore_z.py lines 24-29: line-5 sniffing (vacuously true on a line with no
tokens). -/
def is_atom_count_line (line : String) : Bool :=
  (pySplit (pyStrip line)).all pyIsdigit

/-- The atom-counts line the script reads, by the sniffing rule. -/
def countsLineOf (lines : List String) : String :=
  if RZ.is_atom_count_line (lines.getD 5 "") then pyStrip (lines.getD 5 "")
  else pyStrip (lines.getD 6 "")

/-- Index of the first coordinate line, by the sniffing rule. -/
def coordsStartOf (lines : List String) : ℕ :=
  if RZ.is_atom_count_line (lines.getD 5 "") then 7 else 8

/-- Output header block of restore_z.py (lines 41-82). -/
def headerOf (lines : List String) : List String :=
  let header := pyRstripNl (lines.getD 0 "")
  [header, pyRstripNl (lines.getD 1 ""),
   RZ.reorder_and_format_line (lines.getD 2 ""), RZ.reorder_and_format_line (lines.getD 3 ""),
   RZ.reorder_and_format_line (lines.getD 4 "")] ++
  (if RZ.is_atom_count_line (lines.getD 5 "") then
    [String.intercalate " " (pySplit header), pyStrip (lines.getD 5 ""),
     pyRstripNl (lines.getD 6 "")]
  else
    [pyRstripNl (lines.getD 5 ""), pyStrip (lines.getD 6 ""), pyRstripNl (lines.getD 7 "")])

/-- restore_z.py lines 84-106: counts parsing, the coordinate-line count check,
and output assembly. -/
def finishRun (lines : List String) : Except Err (List String) :=
  match optionMapList pyInt? (pySplit (RZ.countsLineOf lines)) with
  | none => .error .parseCounts
  | some counts =>
    let natoms := counts.sum
    let cs := RZ.coordsStartOf lines
    if (lines.length : ℤ) < (cs : ℤ) + natoms then
      .error (.notEnoughCoords natoms ((lines.length : ℤ) - (cs : ℤ)))
    else
      .ok (RZ.headerOf lines ++
        ((lines.drop cs).take natoms.toNat).map RZ.reorder_and_format_line)

/-- restore_z.py `main` (lines 31-106). -/
def run (lines : List String) : Except Err (List String) :=
  if lines.length < 7 then .error .tooShort
  else if RZ.is_atom_count_line (lines.getD 5 "") then RZ.finishRun lines
  else
    match lineAt lines 7 with
    | .error e => .error e
    | .ok _ => RZ.finishRun lines

end RZ

namespace SD

/-- shift_c_direct.py lines 4-6: one number under Profile B. -/
def format_number (q : ℚ) : String := formatFixed 23 16 q

/-- shift_c_direct.py lines 8-10: Profile B rendering of a vector. -/
def format_vector (v : List ℚ) : String :=
  " " ++ String.intercalate " " (v.map SD.format_number)

/-- shift_c_direct.py lines 12-15: line-5 sniffing (requires at least one
token). -/
def is_atom_count_line (line : String) : Bool :=
  let tokens := pySplit (pyStrip line)
  !tokens.isEmpty && tokens.all pyIsdigit

/-- shift_c_direct.py line 93: the run proceeds only when the coordinate system
line is non-empty and starts (case-insensitively) with d. -/
def coordOk (s : String) : Bool :=
  match s.data with
  | [] => false
  | c :: _ => c.toLower == 'd'

/-- shift_c_direct.py lines 32-38: a lattice line re-rendered under Profile B. -/
def latticeLineFmt (l : String) : Except Err String :=
  match optionMapList pyFloat? (pySplit (pyStrip l)) with
  | some v => .ok (SD.format_vector v)
  | none => .error .latticeParse

/-- shift_c_direct.py `parse_header` (lines 17-65): returns the output header
block, the index of the first coordinate line, the atom count, and the
coordinate-system line. -/
def parse_header (lines : List String) :
    Except Err (List String × ℕ × ℤ × String) :=
  match lineAt lines 0, lineAt lines 1, lineAt lines 2, lineAt lines 3, lineAt lines 4,
      lineAt lines 5 with
  | .ok l0, .ok l1, .ok l2, .ok l3, .ok l4, .ok l5 =>
    match SD.latticeLineFmt l2, SD.latticeLineFmt l3, SD.latticeLineFmt l4 with
    | .ok f2, .ok f3, .ok f4 =>
      if SD.is_atom_count_line l5 then
        match lineAt lines 6 with
        | .ok l6 =>
          let countsL := pyStrip l5
          let coordL := pyStrip l6
          match optionMapList pyInt? (pySplit countsL) with
          | some cnts =>
            .ok ([pyRstripNl l0, pyRstripNl l1, f2, f3, f4, countsL, coordL], 7, cnts.sum, coordL)
          | none => .error .parseCounts
        | .error e => .error e
      else
        match lineAt lines 6, lineAt lines 7 with
        | .ok l6, .ok l7 =>
          let countsL := pyStrip l6
          let coordL := pyStrip l7
          match optionMapList pyInt? (pySplit countsL) with
          | some cnts =>
            .ok ([pyRstripNl l0, pyRstripNl l1, f2, f3, f4, pyRstripNl l5, countsL, coordL], 8,
              cnts.sum, coordL)
          | none => .error .parseCounts
        | _, _ => .error .indexError
    | .error e, _, _ => .error e
    | _, .error e, _ => .error e
    | _, _, .error e => .error e
  | _, _, _, _, _, _ => .error .indexError

/-- shift_c_direct.py lines 102-111: first three tokens become the position,
the remaining tokens become the extras. -/
def parseAtomLine (line : String) : Except Err (List ℚ × List String) :=
  let tokens := pySplit (pyStrip line)
  match optionMapList pyFloat? (tokens.take 3) with
  | some d => .ok (d, tokens.drop 3)
  | none => .error .coordParse

/-- shift_c_direct.py line 123: the shifted fractional coordinate. -/
def newZ (z delta : ℚ) : ℚ := pymod (z + delta) 1

/-- shift_c_direct.py lines 122-128: rendering of one shifted atom line (the
index accesses d[0], d[1], d[2] raise IndexError on a short position). -/
def shiftLine (delta : ℚ) : List ℚ × List String → Except Err String
  | (x :: y :: z :: _, extras) =>
    .ok (SD.format_vector [x, y, SD.newZ z delta] ++
      (if extras.isEmpty then "" else " " ++ String.intercalate " " extras))
  | _ => .error .indexError

/-- shift_c_direct.py `main` (lines 67-137), after argument parsing. -/
def run (lines : List String) (atom_index : ℤ) (target : ℚ) : Except Err (List String) :=
  match SD.parse_header lines with
  | .error e => .error e
  | .ok (hb, cs, n, coordL) =>
    if !SD.coordOk coordL then .error .badCoordSystem
    else
      match exceptMapList SD.parseAtomLine ((lines.drop cs).take n.toNat) with
      | .error e => .error e
      | .ok coords =>
        if atom_index < 1 ∨ (coords.length : ℤ) < atom_index then
          .error (.atomIndexRange coords.length)
        else
          match (coords.getD (atom_index - 1).toNat ([], [])).1 with
          | _ :: _ :: z :: _ =>
            match exceptMapList (SD.shiftLine (target - z)) coords with
            | .error e => .error e
            | .ok newLines => .ok (hb ++ newLines)
          | _ => .error .indexError

end SD

namespace TC

/-- translate_c.py lines 5-7: every token of the line parsed as a float. -/
def parse_floats_from_line (line : String) : Option (List ℚ) :=
  optionMapList pyFloat? (pySplit line)

/-- translate_c.py lines 9-12: Profile A rendering of the first three
components (IndexError on a shorter vector). -/
def format_coord (v : List ℚ) : Except Err String :=
  match v with
  | c0 :: c1 :: c2 :: _ =>
    .ok (" " ++ formatFixed 15 10 c0 ++ " " ++ formatFixed 15 10 c1 ++ " " ++ formatFixed 15 10 c2)
  | _ => .error .indexError

/-- translate_c.py lines 14-19: line-5 sniffing (vacuously true on a line with
no tokens). -/
def is_atom_count_line (line : String) : Bool :=
  (pySplit (pyStrip line)).all pyIsdigit

/-- Elementwise dot product of two numpy 1-D arrays; unequal lengths raise. -/
def dotQ : List ℚ → List ℚ → Except Err ℚ
  | [], [] => .ok 0
  | x :: xs, y :: ys =>
    match TC.dotQ xs ys with
    | .ok r => .ok (x * y + r)
    | .error e => .error e
  | _, _ => .error .shapeMismatch

/-- Elementwise sum of two numpy 1-D arrays; unequal lengths raise (the
length-1 broadcasting numpy would perform is outside the model). -/
def addVec : List ℚ → List ℚ → Except Err (List ℚ)
  | [], [] => .ok []
  | x :: xs, y :: ys =>
    match TC.addVec xs ys with
    | .ok r => .ok ((x + y) :: r)
    | .error e => .error e
  | _, _ => .error .shapeMismatch

/-- Elementwise difference of two numpy 1-D arrays; unequal lengths raise. -/
def subVec : List ℚ → List ℚ → Except Err (List ℚ)
  | [], [] => .ok []
  | x :: xs, y :: ys =>
    match TC.subVec xs ys with
    | .ok r => .ok ((x - y) :: r)
    | .error e => .error e
  | _, _ => .error .shapeMismatch

/-- Squared Euclidean norm. `np.linalg.norm(c) == 0` iff `normSq c == 0`, which
is how translate_c.py line 92's zero test is carried into `ℚ`. -/
def normSq (v : List ℚ) : ℚ := (v.map (fun x => x * x)).sum

/-- translate_c.py lines 107-116 for one atom. The source compares
`proj = v · (c / |c|)` against `threshold = |c| / 2`; multiplying both sides of
`proj < threshold` by `|c| > 0` (the zero-norm case has already aborted) turns
the test into the equivalent rational comparison `2 (v · c) < c · c` used here
(theorem `periodicTranslate_correct` relates it back to the square-root form). -/
def translateAtom (c : List ℚ) (sel : Bool) (v : List ℚ) : Except Err (List ℚ) :=
  if sel then
    match TC.dotQ v c with
    | .ok p =>
      if p * 2 < TC.normSq c then TC.addVec v c else TC.subVec v c
    | .error e => .error e
  else .ok v

/-- translate_c.py lines 99-117: the per-atom loop, carrying the running
0-indexed atom number. -/
def processAtoms (c : List ℚ) (idxs : List ℤ) : ℕ → List String → Except Err (List (List ℚ))
  | _, [] => .ok []
  | i, l :: ls =>
    match TC.parse_floats_from_line l with
    | none => .error .coordParse
    | some v =>
      match TC.translateAtom c (decide ((i : ℤ) ∈ idxs)) v with
      | .error e => .error e
      | .ok v2 =>
        match TC.processAtoms c idxs (i + 1) ls with
        | .ok rest => .ok (v2 :: rest)
        | .error e => .error e

/-- The atom-counts line the script reads, by the sniffing rule. -/
def countsLineOf (lines : List String) : String :=
  if TC.is_atom_count_line (lines.getD 5 "") then pyStrip (lines.getD 5 "")
  else pyStrip (lines.getD 6 "")

/-- Index of the first coordinate line, by the sniffing rule. -/
def coordsStartOf (lines : List String) : ℕ :=
  if TC.is_atom_count_line (lines.getD 5 "") then 7 else 8

/-- Output header block of translate_c.py (lines 36-72): the lattice lines are
passed through verbatim. -/
def headerOf (lines : List String) : List String :=
  let header := pyRstripNl (lines.getD 0 "")
  [header, pyRstripNl (lines.getD 1 ""), pyRstripNl (lines.getD 2 ""),
   pyRstripNl (lines.getD 3 ""), pyRstripNl (lines.getD 4 "")] ++
  (if TC.is_atom_count_line (lines.getD 5 "") then
    [String.intercalate " " (pySplit header), pyStrip (lines.getD 5 ""),
     pyRstripNl (lines.getD 6 "")]
  else
    [pyRstripNl (lines.getD 5 ""), pyStrip (lines.getD 6 ""), pyRstripNl (lines.getD 7 "")])

/-- translate_c.py lines 74-126: counts parsing, the coordinate-line count
check, the zero-norm check, the atom loop, and output assembly. -/
def finishRun (lines : List String) (atom_indices : List ℤ) (c : List ℚ) :
    Except Err (List String) :=
  match optionMapList pyInt? (pySplit (TC.countsLineOf lines)) with
  | none => .error .parseCounts
  | some counts =>
    let natoms := counts.sum
    let cs := TC.coordsStartOf lines
    if (lines.length : ℤ) < (cs : ℤ) + natoms then
      .error (.notEnoughCoords natoms ((lines.length : ℤ) - (cs : ℤ)))
    else if TC.normSq c = 0 then .error .zeroCVector
    else
      match TC.processAtoms c atom_indices 0 ((lines.drop cs).take natoms.toNat) with
      | .error e => .error e
      | .ok ws =>
        match exceptMapList TC.format_coord ws with
        | .error e => .error e
        | .ok rendered => .ok (TC.headerOf lines ++ rendered)

/-- translate_c.py `main` (lines 21-126), after the comma-separated index list
has been parsed to the integers `indices`. -/
def run (lines : List String) (indices : List ℤ) : Except Err (List String) :=
  let atom_indices := indices.map (fun x => x - 1)
  if lines.length < 7 then .error .tooShort
  else
    match TC.parse_floats_from_line (pyRstripNl (lines.getD 2 "")),
        TC.parse_floats_from_line (pyRstripNl (lines.getD 3 "")),
        TC.parse_floats_from_line (pyRstripNl (lines.getD 4 "")) with
    | some _, some _, some c =>
      if TC.is_atom_count_line (lines.getD 5 "") then TC.finishRun lines atom_indices c
      else
        match lineAt lines 7 with
        | .error e => .error e
        | .ok _ => TC.finishRun lines atom_indices c
    | _, _, _ => .error .latticeParse

end TC

/-- Dot product of two equal-length rational vectors, in the mathematical form
used by the specification statements. -/
def dotprod (v w : List ℚ) : ℚ := (List.zipWith (fun a b => a * b) v w).sum

/-- Profile A rendering of the first three components of a vector, in the form
used by the specification statements. -/
def renderA (v : List ℚ) : String :=
  " " ++ formatFixed 15 10 (v.getD 0 0) ++ " " ++ formatFixed 15 10 (v.getD 1 0) ++
    " " ++ formatFixed 15 10 (v.getD 2 0)

/-! ### Concrete documents used by witnesses and counterexamples -/

/-- The round-trip document of spec §8, with selective-dynamics extras on the
second atom line. -/
def C1lines : List String :=
  ["Si2", "1.0", " 5.0 0.0 0.0", " 0.0 5.0 0.0", " 0.0 0.0 5.0", "2", "Direct",
   "0.0 0.0 0.0", "0.5 0.5 0.25 T T F"]

/-- Header block produced by shift_c_direct.py on `C1lines`. -/
def C1hb : List String :=
  ["Si2", "1.0",
   "      5.0000000000000000      0.0000000000000000      0.0000000000000000",
   "      0.0000000000000000      5.0000000000000000      0.0000000000000000",
   "      0.0000000000000000      0.0000000000000000      5.0000000000000000",
   "2", "Direct"]

/-- Parsed atoms of `C1lines`. -/
def C1coords : List (List ℚ × List String) :=
  [([0, 0, 0], []), ([1/2, 1/2, 1/4], ["T", "T", "F"])]

/-- A direct-coordinates document announcing 2 atoms but providing 1 line. -/
def C2docSD : List String :=
  ["Si2", "1.0", "5 0 0", "0 5 0", "0 0 5", "2", "Direct", "0.1 0.2 0.3"]

/-- A cartesian document announcing 2 atoms but providing 1 line. -/
def C2docML : List String :=
  ["Si2", "1.0", "5 0 0", "0 5 0", "0 0 5", "2", "Cartesian", "0.1 0.2 0.3"]

/-- A document announcing 2 atoms and providing none. -/
def C2docRZ : List String :=
  ["Si2", "1.0", "5 0 0", "0 5 0", "0 0 5", "2", "Direct"]

/-- A well-formed symbol-less document whose coordinate-system line is the
parameter. -/
def C4doc (cs : String) : List String :=
  ["Si2", "1.0", "5 0 0", "0 5 0", "0 0 5", "2", cs, "0.1 0.2 0.3", "0.4 0.5 0.6"]

/-- A cartesian document whose first atom line carries extras tokens. -/
def C5doc : List String :=
  ["Si2", "1.0", "5 0 0", "0 5 0", "0 0 5", "2", "Cartesian", "0.1 0.2 0.3 T T T",
   "0.4 0.5 0.6"]

/-- Output of modify_c_lattice.py on `C5doc` (extras gone from line 8). -/
def C5out : List String :=
  ["Si2", "1.0",
   "    5.0000000000    0.0000000000    0.0000000000",
   "    0.0000000000    5.0000000000    0.0000000000",
   "    0.0000000000    0.0000000000    5.0000000000",
   "Si2", "2", "Cartesian",
   "    0.1000000000    0.2000000000    0.3000000000",
   "    0.4000000000    0.5000000000    0.6000000000"]

/-- A cartesian document with two atoms, the first selected for translation. -/
def C6doc : List String :=
  ["Si2", "1.0", "5 0 0", "0 5 0", "0 0 5", "2", "Cartesian", "1 1 1", "1 1 4"]

/-- Output of translate_c.py on `C6doc` with index list [1]. -/
def C6out : List String :=
  ["Si2", "1.0", "5 0 0", "0 5 0", "0 0 5", "Si2", "2", "Cartesian",
   "    1.0000000000    1.0000000000    6.0000000000",
   "    1.0000000000    1.0000000000    4.0000000000"]

/-- Like `C6doc` but with a zero third lattice vector. -/
def C6zeroDoc : List String :=
  ["Si2", "1.0", "5 0 0", "0 5 0", "0 0 0", "2", "Cartesian", "1 1 1", "1 1 4"]

/-- A symbol-less cartesian document with the header as the parameter. -/
def C8fam (h : String) : List String :=
  [h, "1.0", "5 0 0", "0 5 0", "0 0 5", "1 1", "Cartesian", "0.1 0.2 0.3", "0.4 0.5 0.6"]

/-- A symbol-less direct-coordinates document with the header as parameter. -/
def C8famD (h : String) : List String :=
  [h, "1.0", "5 0 0", "0 5 0", "0 0 5", "1 1", "Direct", "0.1 0.2 0.3", "0.4 0.5 0.6"]

/-- Output of shift_c_direct.py on `C8famD "Si O"` with index 1, target 1/2:
no chemical-symbols line is inserted. -/
def C8sdOut : List String :=
  ["Si O", "1.0",
   "      5.0000000000000000      0.0000000000000000      0.0000000000000000",
   "      0.0000000000000000      5.0000000000000000      0.0000000000000000",
   "      0.0000000000000000      0.0000000000000000      5.0000000000000000",
   "1 1", "Direct",
   "      0.1000000000000000      0.2000000000000000      0.5000000000000000",
   "      0.4000000000000000      0.5000000000000000      0.8000000000000000"]

/-! ### Helper lemmas -/

set_option maxRecDepth 1000000

theorem pymod_one_eq_fract (a : ℚ) : pymod a 1 = Int.fract a := by
  show a - 1 * ⌊a / 1⌋ = a - ⌊a⌋
  rw [div_one, one_mul]

theorem natDigitsList_length (p : ℕ) : ∀ m, (natDigitsList p m).length = p := by
  induction p with
  | zero => intro m; rfl
  | succ p ih => intro m; simp [natDigitsList, ih]

theorem natDigitsList_isDigit (p : ℕ) : ∀ m, ∀ c ∈ natDigitsList p m, c.isDigit = true := by
  induction p with
  | zero => intro m c hc; simp [natDigitsList] at hc
  | succ p ih =>
    intro m c hc
    simp only [natDigitsList, List.mem_append, List.mem_singleton] at hc
    rcases hc with h | h
    · exact ih _ c h
    · subst h
      have h10 : m % 10 < 10 := Nat.mod_lt _ (by norm_num)
      interval_cases h : m % 10 <;> decide

theorem length_padLeft (w : ℕ) (s : String) (h : s.length ≤ w) :
    (padLeft w s).length = w := by
  rw [padLeft, String.length_append]
  have h1 : (String.mk (List.replicate (w - s.length) ' ')).length = w - s.length := by
    show (List.replicate (w - s.length) ' ').length = _
    simp
  omega

theorem fixedNumeral_frac (p : ℕ) (q : ℚ) :
    ∃ pre frac, fixedNumeral p q = pre ++ ("." ++ frac) ∧ frac.length = p ∧
      frac.data.all Char.isDigit = true := by
  refine ⟨(if q < 0 then "-" else "") ++
      toString ((roundHalfEven (q * (10 : ℚ) ^ p)).natAbs / 10 ^ p),
    natDigitsPadded p ((roundHalfEven (q * (10 : ℚ) ^ p)).natAbs % 10 ^ p), ?_, ?_, ?_⟩
  · rw [fixedNumeral, String.append_assoc]
  · exact natDigitsList_length p _
  · rw [List.all_eq_true]
    intro c hc
    exact natDigitsList_isDigit p _ c hc

/-! ### C10 -/

/-- C10: the shifted fractional coordinate written by DirectCShift for any atom,
`(z + delta) mod 1.0` in exact arithmetic, always lies in the half-open
interval [0, 1), whatever the original `z` and the shift `delta` are. -/
theorem directCShift_newZ_in_unit_interval (z delta : ℚ) :
    0 ≤ SD.newZ z delta ∧ SD.newZ z delta < 1 := by
  have h : SD.newZ z delta = Int.fract (z + delta) := pymod_one_eq_fract (z + delta)
  rw [h]
  exact ⟨Int.fract_nonneg _, Int.fract_lt_one _⟩

/-! ### C3 -/

/-- C3 counterexample: the sniffing predicates of modify_c_lattice.py and
restore_z.py disagree on a line with no tokens, so the four operators do not
share one identical disambiguation rule. -/
theorem sniffers_disagree_on_blank_line :
    ML.is_atom_count_line "" = false ∧ RZ.is_atom_count_line "" = true :=
  ⟨by with_unfolding_all rfl, by with_unfolding_all rfl⟩

/-- C3 amended: there are exactly two sniffing variants — modify_c_lattice.py
agrees with shift_c_direct.py (both demand at least one token) and
restore_z.py agrees with translate_c.py (both accept a token-less line) — and
on every line with at least one token all four classifiers coincide. -/
theorem sniffers_two_variants (line : String) :
    ML.is_atom_count_line line = SD.is_atom_count_line line ∧
    RZ.is_atom_count_line line = TC.is_atom_count_line line ∧
    (pySplit (pyStrip line) ≠ [] →
      ML.is_atom_count_line line = RZ.is_atom_count_line line) := by
  refine ⟨rfl, rfl, fun h => ?_⟩
  have he : (pySplit (pyStrip line)).isEmpty = false := by
    cases hs : pySplit (pyStrip line) with
    | nil => exact absurd hs h
    | cons a l => rfl
  simp [ML.is_atom_count_line, RZ.is_atom_count_line, he]

/-- Witness for C3 amended at the counts line "1 2". -/
theorem sniffers_two_variants_witness :
    pySplit (pyStrip "1 2") ≠ [] ∧
      ML.is_atom_count_line "1 2" = RZ.is_atom_count_line "1 2" :=
  ⟨by with_unfolding_all decide,
    (sniffers_two_variants "1 2").2.2 (by with_unfolding_all decide)⟩

/-! ### C7 -/

/-- C7 counterexample: a non-triple line is not passed through verbatim up to
the trailing newline — restore_z.py strips all trailing whitespace from it. -/
theorem axisRestore_passthrough_strips_whitespace :
    RZ.reorder_and_format_line "a b \t" = "a b" ∧ "a b" ≠ "a b \t" :=
  ⟨by with_unfolding_all rfl, by decide⟩

/-- C7 amended: a line splitting into exactly 3 float tokens (v0, v1, v2),
stored order (z, x, y), is re-rendered as (v1, v2, v0) under Profile A; a line
that does not split into exactly 3 tokens is passed through with its trailing
whitespace (not only the newline) stripped. -/
theorem axisRestore_line_mapping (line : String) :
    ((pySplit line).length ≠ 3 →
      RZ.reorder_and_format_line line = pyRstrip line) ∧
    (∀ t0 t1 t2 v0 v1 v2, pySplit line = [t0, t1, t2] →
      pyFloat? t0 = some v0 → pyFloat? t1 = some v1 → pyFloat? t2 = some v2 →
      RZ.reorder_and_format_line line =
        " " ++ formatFixed 15 10 v1 ++ " " ++ formatFixed 15 10 v2 ++ " " ++
          formatFixed 15 10 v0) := by
  constructor
  · intro h
    rw [RZ.reorder_and_format_line]
    simp [h]
  · intro t0 t1 t2 v0 v1 v2 hs h0 h1 h2
    rw [RZ.reorder_and_format_line]
    simp [hs, h0, h1, h2]

/-- Witness for C7 amended at the spec §8 line "1.0 2.0 3.0". -/
theorem axisRestore_line_mapping_witness :
    pySplit "1.0 2.0 3.0" = ["1.0", "2.0", "3.0"] ∧
      RZ.reorder_and_format_line "1.0 2.0 3.0" =
        " " ++ formatFixed 15 10 2 ++ " " ++ formatFixed 15 10 3 ++ " " ++
          formatFixed 15 10 1 :=
  ⟨by with_unfolding_all decide,
    (axisRestore_line_mapping "1.0 2.0 3.0").2 "1.0" "2.0" "3.0" 1 2 3
      (by with_unfolding_all decide) (by with_unfolding_all decide)
      (by with_unfolding_all decide) (by with_unfolding_all decide)⟩

/-! ### C9 -/

/-- C9 counterexample: a component whose fixed-point numeral is wider than the
field occupies more than the profile's field width (Python's width is a
minimum, not a fixed size), so not every component occupies exactly 15
characters under Profile A. -/
theorem formatter_width_not_fixed :
    (formatFixed 15 10 ((246913 : ℚ) / 2)).length ≠ 15 := by
  with_unfolding_all decide

/-- C9 amended: components are joined by single spaces after one leading space;
each component has exactly the profile's number of digits after the decimal
point, and it occupies exactly the profile's field width (right-justified by
left space padding) whenever its fixed-point numeral fits in the field —
a wider numeral overflows the field instead of being truncated. -/
theorem formatter_contract (q : ℚ) :
    ((fixedNumeral 10 q).length ≤ 15 →
      (formatFixed 15 10 q).length = 15 ∧
      formatFixed 15 10 q =
        String.mk (List.replicate (15 - (fixedNumeral 10 q).length) ' ') ++
          fixedNumeral 10 q) ∧
    ((fixedNumeral 16 q).length ≤ 23 →
      (SD.format_number q).length = 23 ∧
      SD.format_number q =
        String.mk (List.replicate (23 - (fixedNumeral 16 q).length) ' ') ++
          fixedNumeral 16 q) ∧
    (∀ p, ∃ pre frac, fixedNumeral p q = pre ++ ("." ++ frac) ∧ frac.length = p ∧
      frac.data.all Char.isDigit = true) ∧
    (∀ x y z : ℚ, ML.format_vector [x, y, z] =
      " " ++ formatFixed 15 10 x ++ " " ++ formatFixed 15 10 y ++ " " ++
        formatFixed 15 10 z) ∧
    (∀ x y z : ℚ, SD.format_vector [x, y, z] =
      " " ++ formatFixed 23 16 x ++ " " ++ formatFixed 23 16 y ++ " " ++
        formatFixed 23 16 z) := by
  refine ⟨fun h => ⟨length_padLeft 15 _ h, rfl⟩,
    fun h => ⟨length_padLeft 23 _ h, rfl⟩,
    fun p => fixedNumeral_frac p q, fun x y z => ?_, fun x y z => ?_⟩
  · simp [ML.format_vector, String.intercalate, String.intercalate.go,
      String.append_assoc]
  · simp [SD.format_vector, SD.format_number, String.intercalate,
      String.intercalate.go, String.append_assoc]

/-- Witness for C9 amended at q = 1/2 (its Profile A numeral fits the field). -/
theorem formatter_contract_witness :
    (fixedNumeral 10 ((1 : ℚ) / 2)).length ≤ 15 ∧
      (formatFixed 15 10 ((1 : ℚ) / 2)).length = 15 :=
  ⟨by with_unfolding_all decide,
    ((formatter_contract ((1 : ℚ) / 2)).1 (by with_unfolding_all decide)).1⟩

/-! ### C4 -/

/-- C4 counterexample: the coordinate-system line is not validated identically —
modify_c_lattice.py rejects a line starting with d (which the claim's rule
accepts), while restore_z.py accepts a line starting with z (which the claim's
rule rejects). -/
theorem coordSystem_validation_not_uniform :
    (ML.run (C4doc "Direct") 0).isOk = false ∧ (RZ.run (C4doc "Zebra")).isOk = true :=
  ⟨by with_unfolding_all rfl, by with_unfolding_all rfl⟩

theorem ML_finishRun_isOk (lines : List String) (k : ℕ) (hdr : List String)
    (coordL : String) :
    (ML.finishRun lines k hdr coordL).isOk = ML.coordOk coordL := by
  cases h : ML.coordOk coordL <;> simp [ML.finishRun, h, Except.isOk, Except.toBool]

theorem ML_coordOk_iff (s : String) :
    ML.coordOk s = true ↔
      s.data ≠ [] ∧ ((s.data.headD ' ').toLower = 'c' ∨ (s.data.headD ' ').toLower = 'k') := by
  rcases hs : s.data with _ | ⟨c0, rest⟩
  · simp [ML.coordOk, hs]
  · simp [ML.coordOk, hs]

theorem SD_coordOk_iff (s : String) :
    SD.coordOk s = true ↔ s.data ≠ [] ∧ (s.data.headD ' ').toLower = 'd' := by
  rcases hs : s.data with _ | ⟨c0, rest⟩
  · simp [SD.coordOk, hs]
  · simp [SD.coordOk, hs]

/-- C4 amended: each operator validates the (stripped) coordinate-system line
its own way. On an otherwise well-formed document whose coordinate-system line
is any string whatsoever: modify_c_lattice.py succeeds exactly when the
stripped line is non-empty and its first character lowercases to c or k,
shift_c_direct.py exactly when it is non-empty and its first character
lowercases to d, and restore_z.py and translate_c.py always succeed, never
validating the line. -/
theorem coordSystem_validation_per_operator (cs : String) :
    ((ML.run (C4doc cs) 0).isOk = true ↔
      (pyStrip cs).data ≠ [] ∧
        (((pyStrip cs).data.headD ' ').toLower = 'c' ∨
          ((pyStrip cs).data.headD ' ').toLower = 'k')) ∧
    ((SD.run (C4doc cs) 1 0).isOk = true ↔
      (pyStrip cs).data ≠ [] ∧ ((pyStrip cs).data.headD ' ').toLower = 'd') ∧
    (RZ.run (C4doc cs)).isOk = true ∧
    (TC.run (C4doc cs) [1]).isOk = true := by
  refine ⟨?_, ?_, by with_unfolding_all rfl, by with_unfolding_all rfl⟩
  · have hrun : ML.run (C4doc cs) 0 =
        ML.finishRun (C4doc cs) 7
          ["Si2", "1.0",
           "    5.0000000000    0.0000000000    0.0000000000",
           "    0.0000000000    5.0000000000    0.0000000000",
           "    0.0000000000    0.0000000000    5.0000000000",
           "Si2", "2", pyStrip cs] (pyStrip cs) := by
      with_unfolding_all rfl
    rw [hrun, ML_finishRun_isOk]
    exact ML_coordOk_iff (pyStrip cs)
  · have hsd : (SD.run (C4doc cs) 1 0).isOk = SD.coordOk (pyStrip cs) := by
      have hph : SD.parse_header (C4doc cs) = .ok
          (["Si2", "1.0",
            "      5.0000000000000000      0.0000000000000000      0.0000000000000000",
            "      0.0000000000000000      5.0000000000000000      0.0000000000000000",
            "      0.0000000000000000      0.0000000000000000      5.0000000000000000",
            "2", pyStrip cs], 7, 2, pyStrip cs) := by
        with_unfolding_all rfl
      simp only [SD.run, hph]
      cases h : SD.coordOk (pyStrip cs)
      · simp [h, Except.isOk, Except.toBool]
      · simp only [h, Bool.not_true, Bool.false_eq_true, if_false]
        with_unfolding_all rfl
    rw [hsd]
    exact SD_coordOk_iff (pyStrip cs)

/-! ### C2 -/

/-- C2 counterexample: on an input announcing 2 atoms but providing a single
coordinate line, shift_c_direct.py (asked about atom 1) and modify_c_lattice.py
both succeed and write output instead of failing. -/
theorem insufficient_lines_not_fatal_everywhere :
    (SD.run C2docSD 1 (1 / 2)).isOk = true ∧ (ML.run C2docML 0).isOk = true :=
  ⟨by with_unfolding_all rfl, by with_unfolding_all rfl⟩

/-- C2 amended: only restore_z.py and translate_c.py treat fewer coordinate
lines than `sum(counts)` as a fatal error naming the expected and found counts
and writing no output; shift_c_direct.py silently truncates to the lines
present and modify_c_lattice.py never counts atoms at all. -/
theorem insufficient_lines_fatal_in_axisRestore_and_periodicTranslate :
    (∀ (lines : List String) (counts : List ℤ), 7 ≤ lines.length →
      RZ.coordsStartOf lines ≤ lines.length →
      optionMapList pyInt? (pySplit (RZ.countsLineOf lines)) = some counts →
      (lines.length : ℤ) < (RZ.coordsStartOf lines : ℤ) + counts.sum →
      RZ.run lines = .error (.notEnoughCoords counts.sum
        ((lines.length : ℤ) - (RZ.coordsStartOf lines : ℤ)))) ∧
    (∀ (lines : List String) (indices : List ℤ) (a b c : List ℚ) (counts : List ℤ),
      7 ≤ lines.length →
      TC.coordsStartOf lines ≤ lines.length →
      TC.parse_floats_from_line (pyRstripNl (lines.getD 2 "")) = some a →
      TC.parse_floats_from_line (pyRstripNl (lines.getD 3 "")) = some b →
      TC.parse_floats_from_line (pyRstripNl (lines.getD 4 "")) = some c →
      optionMapList pyInt? (pySplit (TC.countsLineOf lines)) = some counts →
      (lines.length : ℤ) < (TC.coordsStartOf lines : ℤ) + counts.sum →
      TC.run lines indices = .error (.notEnoughCoords counts.sum
        ((lines.length : ℤ) - (TC.coordsStartOf lines : ℤ)))) := by
  constructor
  · intro lines counts h7 hcs hc hlt
    have hfin : RZ.finishRun lines = .error (.notEnoughCoords counts.sum
        ((lines.length : ℤ) - (RZ.coordsStartOf lines : ℤ))) := by
      rw [RZ.finishRun]
      simp only [hc]
      rw [if_pos hlt]
    rw [RZ.run, if_neg (by omega)]
    by_cases hsn : RZ.is_atom_count_line (lines.getD 5 "") = true
    · rw [if_pos hsn]
      exact hfin
    · rw [if_neg hsn]
      have h8 : 7 < lines.length := by
        have hcs8 : RZ.coordsStartOf lines = 8 := by
          rw [RZ.coordsStartOf, if_neg hsn]
        omega
      have hla : lines[7]? = some lines[7] := List.getElem?_eq_getElem h8
      rw [lineAt]
      simp only [hla]
      exact hfin
  · intro lines indices a b c counts h7 hcs ha hb hcv hcnt hlt
    have hfin : TC.finishRun lines (indices.map (fun x => x - 1)) c =
        .error (.notEnoughCoords counts.sum
          ((lines.length : ℤ) - (TC.coordsStartOf lines : ℤ))) := by
      rw [TC.finishRun]
      simp only [hcnt]
      rw [if_pos hlt]
    simp only [TC.run]
    rw [if_neg (by omega)]
    simp only [ha, hb, hcv]
    by_cases hsn : TC.is_atom_count_line (lines.getD 5 "") = true
    · rw [if_pos hsn]
      exact hfin
    · rw [if_neg hsn]
      have h8 : 7 < lines.length := by
        have hcs8 : TC.coordsStartOf lines = 8 := by
          rw [TC.coordsStartOf, if_neg hsn]
        omega
      have hla : lines[7]? = some lines[7] := List.getElem?_eq_getElem h8
      rw [lineAt]
      simp only [hla]
      exact hfin

/-- Witness for C2 amended: a 7-line file announcing 2 atoms and providing
none makes restore_z.py fail with expected 2, found 0. -/
theorem insufficient_lines_fatal_witness :
    (7 ≤ C2docRZ.length ∧ RZ.coordsStartOf C2docRZ ≤ C2docRZ.length ∧
      optionMapList pyInt? (pySplit (RZ.countsLineOf C2docRZ)) = some [2] ∧
      (C2docRZ.length : ℤ) < (RZ.coordsStartOf C2docRZ : ℤ) + ([2] : List ℤ).sum) ∧
    RZ.run C2docRZ = .error (.notEnoughCoords ([2] : List ℤ).sum
      ((C2docRZ.length : ℤ) - (RZ.coordsStartOf C2docRZ : ℤ))) :=
  ⟨⟨by with_unfolding_all decide, by with_unfolding_all decide,
    by with_unfolding_all rfl, by with_unfolding_all decide⟩,
   insufficient_lines_fatal_in_axisRestore_and_periodicTranslate.1 C2docRZ [2]
     (by with_unfolding_all decide) (by with_unfolding_all decide)
     (by with_unfolding_all rfl) (by with_unfolding_all decide)⟩

/-! ### C5 -/

/-- C5 counterexample: modify_c_lattice.py drops the trailing tokens of a
re-rendered coordinate line — on `C5doc`, whose first atom line ends in
"T T T", the corresponding output line is just the formatted position. -/
theorem latticeCShift_drops_extras :
    ML.run C5doc 0 = .ok C5out ∧
    C5out.getD 8 "" = ML.format_vector [1 / 10, 2 / 10, 3 / 10] ∧
    ML.format_vector [1 / 10, 2 / 10, 3 / 10] ≠
      ML.format_vector [1 / 10, 2 / 10, 3 / 10] ++ " T T T" :=
  ⟨by with_unfolding_all rfl, by with_unfolding_all rfl, by with_unfolding_all decide⟩

/-- C5 amended: only shift_c_direct.py preserves the tokens after the first
three as extras and appends them space-separated after the formatted position;
modify_c_lattice.py re-renders a parseable line from its first three tokens
only, restore_z.py passes a line without exactly 3 tokens through whole
(stripped of trailing whitespace), and translate_c.py parses every token as a
float and fails on non-numeric extras. -/
theorem extras_preserved_only_by_directCShift :
    (∀ line d extras, SD.parseAtomLine line = .ok (d, extras) →
      extras = (pySplit (pyStrip line)).drop 3) ∧
    (∀ delta x y z extras, SD.shiftLine delta (x :: y :: z :: [], extras) =
      .ok (SD.format_vector [x, y, SD.newZ z delta] ++
        (if extras.isEmpty then "" else " " ++ String.intercalate " " extras))) ∧
    (∀ line t0 t1 t2 rest v0 v1 v2, pySplit (pyStrip line) = t0 :: t1 :: t2 :: rest →
      pyFloat? t0 = some v0 → pyFloat? t1 = some v1 → pyFloat? t2 = some v2 →
      ML.processCoordLine line = ML.format_vector [v0, v1, v2]) ∧
    (∀ line, (pySplit line).length ≠ 3 →
      RZ.reorder_and_format_line line = pyRstrip line) ∧
    TC.run C5doc [1] = .error .coordParse := by
  refine ⟨?_, ?_, ?_, ?_, by with_unfolding_all rfl⟩
  · intro line d extras h
    simp only [SD.parseAtomLine] at h
    cases hm : optionMapList pyFloat? ((pySplit (pyStrip line)).take 3) with
    | none => rw [hm] at h; exact absurd h (by simp)
    | some v =>
      rw [hm] at h
      simp only [Except.ok.injEq, Prod.mk.injEq] at h
      exact h.2.symm
  · intro delta x y z extras
    rfl
  · intro line t0 t1 t2 rest v0 v1 v2 hsplit h0 h1 h2
    have hlen : ¬((t0 :: t1 :: t2 :: rest).length < 3) := by
      simp only [List.length_cons]
      omega
    have g0 : (t0 :: t1 :: t2 :: rest).getD 0 "" = t0 := rfl
    have g1 : (t0 :: t1 :: t2 :: rest).getD 1 "" = t1 := rfl
    have g2 : (t0 :: t1 :: t2 :: rest).getD 2 "" = t2 := rfl
    simp only [ML.processCoordLine, hsplit, g0, g1, g2, h0, h1, h2]
    rw [if_neg hlen]
  · intro line h
    simp only [RZ.reorder_and_format_line]
    rw [if_pos h]

/-- Witness for C5 amended: a two-token line is passed through by restore_z.py
with trailing whitespace stripped. -/
theorem extras_preserved_only_by_directCShift_witness :
    (pySplit "0.1 0.2").length ≠ 3 ∧
      RZ.reorder_and_format_line "0.1 0.2" = pyRstrip "0.1 0.2" :=
  ⟨by with_unfolding_all decide,
    extras_preserved_only_by_directCShift.2.2.2.1 "0.1 0.2"
      (by with_unfolding_all decide)⟩

/-! ### C8 -/

/-- C8 counterexample: when line 5 is the counts line, shift_c_direct.py does
not insert a symbols line — on `C8famD "Si O"` the sixth output line is the
counts line "1 1", not the header tokens joined by spaces. -/
theorem directCShift_omits_symbols_line :
    SD.run (C8famD "Si O") 1 (1 / 2) = .ok C8sdOut ∧
    C8sdOut.getD 5 "" = "1 1" ∧
    "1 1" ≠ String.intercalate " " (pySplit "Si O") :=
  ⟨by with_unfolding_all rfl, by with_unfolding_all rfl, by with_unfolding_all decide⟩

/-- C8 amended: on a symbol-less document, modify_c_lattice.py, restore_z.py
and translate_c.py insert a symbols line equal to the header's tokens joined by
single spaces between the lattice vectors and the counts line; shift_c_direct.py
instead emits header, scaling, lattice vectors, counts, coordinate-system
indicator and atom lines with no symbols line. -/
theorem symbols_line_insertion_per_operator (h : String) :
    ML.run (C8fam h) 0 = .ok [pyRstripNl h, "1.0",
      "    5.0000000000    0.0000000000    0.0000000000",
      "    0.0000000000    5.0000000000    0.0000000000",
      "    0.0000000000    0.0000000000    5.0000000000",
      String.intercalate " " (pySplit (pyRstripNl h)), "1 1", "Cartesian",
      "    0.1000000000    0.2000000000    0.3000000000",
      "    0.4000000000    0.5000000000    0.6000000000"] ∧
    RZ.run (C8fam h) = .ok [pyRstripNl h, "1.0",
      "    0.0000000000    0.0000000000    5.0000000000",
      "    5.0000000000    0.0000000000    0.0000000000",
      "    0.0000000000    5.0000000000    0.0000000000",
      String.intercalate " " (pySplit (pyRstripNl h)), "1 1", "Cartesian",
      "    0.2000000000    0.3000000000    0.1000000000",
      "    0.5000000000    0.6000000000    0.4000000000"] ∧
    TC.run (C8fam h) [1] = .ok [pyRstripNl h, "1.0", "5 0 0", "0 5 0", "0 0 5",
      String.intercalate " " (pySplit (pyRstripNl h)), "1 1", "Cartesian",
      "    0.1000000000    0.2000000000    5.3000000000",
      "    0.4000000000    0.5000000000    0.6000000000"] ∧
    SD.run (C8famD h) 1 (1 / 2) = .ok [pyRstripNl h, "1.0",
      "      5.0000000000000000      0.0000000000000000      0.0000000000000000",
      "      0.0000000000000000      5.0000000000000000      0.0000000000000000",
      "      0.0000000000000000      0.0000000000000000      5.0000000000000000",
      "1 1", "Direct",
      "      0.1000000000000000      0.2000000000000000      0.5000000000000000",
      "      0.4000000000000000      0.5000000000000000      0.8000000000000000"] := by
  refine ⟨?_, ?_, ?_, ?_⟩ <;> with_unfolding_all rfl

/-! ### C1 -/

theorem exceptMapList_shiftLine (delta : ℚ) (coords : List (List ℚ × List String))
    (h : ∀ e ∈ coords, e.1.length = 3) :
    exceptMapList (SD.shiftLine delta) coords = .ok (coords.map (fun e =>
      SD.format_vector [e.1.getD 0 0, e.1.getD 1 0, SD.newZ (e.1.getD 2 0) delta] ++
        (if e.2.isEmpty then "" else " " ++ String.intercalate " " e.2))) := by
  induction coords with
  | nil => rfl
  | cons e l ih =>
    obtain ⟨d, ex⟩ := e
    have h3 : d.length = 3 := h (d, ex) (by simp)
    obtain ⟨x, y, z, rfl⟩ := List.length_eq_three.mp h3
    simp only [exceptMapList, SD.shiftLine, List.map_cons]
    rw [ih (fun e he => h e (List.mem_cons_of_mem _ he))]
    rfl

/-! ### C6 -/

theorem dotQ_ok (v : List ℚ) : ∀ (w : List ℚ), v.length = w.length →
    TC.dotQ v w = .ok (dotprod v w) := by
  induction v with
  | nil =>
    intro w h
    cases w with
    | nil => rfl
    | cons b bs => simp at h
  | cons a as ih =>
    intro w h
    cases w with
    | nil => simp at h
    | cons b bs =>
      have h' : as.length = bs.length := by simpa using h
      simp only [TC.dotQ, ih bs h', dotprod, List.zipWith_cons_cons, List.sum_cons]

theorem addVec_ok (v : List ℚ) : ∀ (w : List ℚ), v.length = w.length →
    TC.addVec v w = .ok (List.zipWith (fun u r => u + r) v w) := by
  induction v with
  | nil =>
    intro w h
    cases w with
    | nil => rfl
    | cons b bs => simp at h
  | cons a as ih =>
    intro w h
    cases w with
    | nil => simp at h
    | cons b bs =>
      have h' : as.length = bs.length := by simpa using h
      simp only [TC.addVec, ih bs h', List.zipWith_cons_cons]

theorem subVec_ok (v : List ℚ) : ∀ (w : List ℚ), v.length = w.length →
    TC.subVec v w = .ok (List.zipWith (fun u r => u - r) v w) := by
  induction v with
  | nil =>
    intro w h
    cases w with
    | nil => rfl
    | cons b bs => simp at h
  | cons a as ih =>
    intro w h
    cases w with
    | nil => simp at h
    | cons b bs =>
      have h' : as.length = bs.length := by simpa using h
      simp only [TC.subVec, ih bs h', List.zipWith_cons_cons]

theorem normSq_nonneg (v : List ℚ) : 0 ≤ TC.normSq v := by
  refine List.sum_nonneg ?_
  intro x hx
  simp only [TC.normSq, List.mem_map] at hx
  obtain ⟨a, _, rfl⟩ := hx
  exact mul_self_nonneg a

theorem format_coord_ok (w : List ℚ) (h : 3 ≤ w.length) :
    TC.format_coord w = .ok (renderA w) := by
  rcases w with _ | ⟨a, _ | ⟨b, _ | ⟨c2, r⟩⟩⟩
  · simp at h
  · simp at h
  · simp at h
  · rfl

theorem exceptMapList_format (ws : List (List ℚ)) (h : ∀ w ∈ ws, 3 ≤ w.length) :
    exceptMapList TC.format_coord ws = .ok (ws.map renderA) := by
  induction ws with
  | nil => rfl
  | cons w ws ih =>
    simp only [exceptMapList, format_coord_ok w (h w (by simp)),
      ih (fun u hu => h u (by simp [hu])), List.map_cons]

theorem processAtoms_ok (c : List ℚ) (hc3 : c.length = 3) (idxs : List ℤ) :
    ∀ (ls : List String) (i0 : ℕ) (vs : List (List ℚ)),
      optionMapList TC.parse_floats_from_line ls = some vs →
      (∀ v ∈ vs, v.length = 3) →
      TC.processAtoms c idxs i0 ls = .ok ((vs.enumFrom i0).map (fun p =>
        if (p.1 : ℤ) ∈ idxs then
          (if dotprod p.2 c * 2 < TC.normSq c then List.zipWith (fun u r => u + r) p.2 c
           else List.zipWith (fun u r => u - r) p.2 c)
        else p.2)) := by
  intro ls
  induction ls with
  | nil =>
    intro i0 vs hp hv
    simp only [optionMapList, Option.some.injEq] at hp
    subst hp
    rfl
  | cons l ls ih =>
    intro i0 vs hp hv
    simp only [optionMapList] at hp
    cases hpl : TC.parse_floats_from_line l with
    | none => rw [hpl] at hp; simp at hp
    | some v =>
      cases hpr : optionMapList TC.parse_floats_from_line ls with
      | none => rw [hpl, hpr] at hp; simp at hp
      | some vs' =>
        rw [hpl, hpr] at hp
        simp only [Option.some.injEq] at hp
        subst hp
        have hvlen : v.length = 3 := hv v (by simp)
        have hv' : ∀ u ∈ vs', u.length = 3 := fun u hu => hv u (by simp [hu])
        have htr : TC.translateAtom c (decide ((i0 : ℤ) ∈ idxs)) v = .ok
            (if (i0 : ℤ) ∈ idxs then
              (if dotprod v c * 2 < TC.normSq c then List.zipWith (fun u r => u + r) v c
               else List.zipWith (fun u r => u - r) v c)
            else v) := by
          by_cases hmem : (i0 : ℤ) ∈ idxs
          · rw [TC.translateAtom]
            rw [decide_eq_true hmem]
            simp only [if_true, if_pos hmem]
            rw [dotQ_ok v c (hvlen.trans hc3.symm)]
            by_cases hcond : dotprod v c * 2 < TC.normSq c
            · simp only [if_pos hcond]
              exact addVec_ok v c (hvlen.trans hc3.symm)
            · simp only [if_neg hcond]
              exact subVec_ok v c (hvlen.trans hc3.symm)
          · rw [TC.translateAtom]
            rw [decide_eq_false hmem]
            simp only [if_neg hmem]
            rfl
        simp only [TC.processAtoms, hpl, htr]
        rw [ih (i0 + 1) vs' hpr hv']
        simp only [List.enumFrom_cons, List.map_cons]

/-- C1: on a parsed direct-coordinates document whose atom lines all carry
three coordinates, with an atom count matching the parsed atoms and a 1-indexed
atomIndex in range, DirectCShift computes delta = targetFraction minus the
selected atom's z, rewrites every atom's z to (z + delta) mod 1.0 while keeping
x, y and the extras tokens, renders positions with Profile B
(`SD.format_vector`, width 23 / 16 decimals), and the selected atom's new z is
targetFraction mod 1.0. -/
theorem directCShift_correct
    (lines : List String) (i : ℤ) (t : ℚ) (hb : List String) (cs : ℕ) (n : ℤ)
    (coordL : String) (coords : List (List ℚ × List String)) (x0 y0 z0 : ℚ)
    (rest0 : List ℚ)
    (hph : SD.parse_header lines = .ok (hb, cs, n, coordL))
    (hcoord : SD.coordOk coordL = true)
    (hparse : exceptMapList SD.parseAtomLine ((lines.drop cs).take n.toNat) = .ok coords)
    (hcount : (coords.length : ℤ) = n)
    (hlen3 : ∀ e ∈ coords, e.1.length = 3)
    (hi : 1 ≤ i) (hin : i ≤ n)
    (hsel : (coords.getD (i - 1).toNat ([], [])).1 = x0 :: y0 :: z0 :: rest0) :
    SD.run lines i t = .ok (hb ++ coords.map (fun e =>
      SD.format_vector [e.1.getD 0 0, e.1.getD 1 0, SD.newZ (e.1.getD 2 0) (t - z0)] ++
        (if e.2.isEmpty then "" else " " ++ String.intercalate " " e.2))) ∧
    SD.newZ z0 (t - z0) = pymod t 1 := by
  constructor
  · simp only [SD.run, hph]
    rw [hcoord]
    simp only [Bool.not_true, Bool.false_eq_true, if_false]
    simp only [hparse]
    have hidx : ¬(i < 1 ∨ (coords.length : ℤ) < i) := by omega
    rw [if_neg hidx]
    simp only [hsel]
    rw [exceptMapList_shiftLine (t - z0) coords hlen3]
  · show pymod (z0 + (t - z0)) 1 = pymod t 1
    rw [show z0 + (t - z0) = t from by ring]

/-- C6: on a parsed document with a 3-component third lattice vector c of
non-zero length, PeriodicTranslate adds the full c vector to every selected
atom (1-indexed index in atomIndices) whose scalar projection onto the c unit
vector is strictly below |c|/2 and subtracts it otherwise, leaves unselected
atoms numerically unchanged, and renders everything with Profile A; the
rational comparison used in the code is equivalent to the projection test
against |c|/2, and a zero-length c vector is a fatal error. -/
theorem periodicTranslate_correct
    (lines : List String) (indices : List ℤ) (a b c : List ℚ)
    (counts : List ℤ) (vs : List (List ℚ))
    (h7 : 7 ≤ lines.length)
    (hcs : TC.coordsStartOf lines ≤ lines.length)
    (hla : TC.parse_floats_from_line (pyRstripNl (lines.getD 2 "")) = some a)
    (hlb : TC.parse_floats_from_line (pyRstripNl (lines.getD 3 "")) = some b)
    (hlc : TC.parse_floats_from_line (pyRstripNl (lines.getD 4 "")) = some c)
    (hcnt : optionMapList pyInt? (pySplit (TC.countsLineOf lines)) = some counts)
    (henough : (TC.coordsStartOf lines : ℤ) + counts.sum ≤ (lines.length : ℤ))
    (hc3 : c.length = 3)
    (hcz : TC.normSq c ≠ 0)
    (hvs : optionMapList TC.parse_floats_from_line
      ((lines.drop (TC.coordsStartOf lines)).take counts.sum.toNat) = some vs)
    (hv3 : ∀ v ∈ vs, v.length = 3) :
    TC.run lines indices = .ok (TC.headerOf lines ++ (vs.enumFrom 0).map (fun p =>
      renderA (if (p.1 : ℤ) + 1 ∈ indices then
        (if dotprod p.2 c < TC.normSq c / 2 then List.zipWith (fun u r => u + r) p.2 c
         else List.zipWith (fun u r => u - r) p.2 c)
        else p.2))) ∧
    (∀ v1 : List ℚ,
      ((dotprod v1 c : ℚ) : ℝ) / Real.sqrt ((TC.normSq c : ℚ) : ℝ) <
          Real.sqrt ((TC.normSq c : ℚ) : ℝ) / 2 ↔
        dotprod v1 c < TC.normSq c / 2) ∧
    TC.run C6zeroDoc [1] = .error .zeroCVector := by
  have hvm : ∀ p ∈ vs.enumFrom 0, p.2.length = 3 := by
    intro p hp
    obtain ⟨i, x⟩ := p
    have hm := List.mem_enumFrom hp
    have hx : x ∈ vs := by
      have hb2 := hm.2.1
      rw [hm.2.2]
      exact List.getElem_mem _
    exact hv3 x hx
  refine ⟨?_, ?_, by with_unfolding_all rfl⟩
  · have hlen3 : ∀ w ∈ (vs.enumFrom 0).map (fun p =>
        if (p.1 : ℤ) ∈ indices.map (fun x => x - 1) then
          (if dotprod p.2 c * 2 < TC.normSq c then List.zipWith (fun u r => u + r) p.2 c
           else List.zipWith (fun u r => u - r) p.2 c)
          else p.2), 3 ≤ w.length := by
      intro w hw
      obtain ⟨p, hp, rfl⟩ := List.mem_map.mp hw
      have hp3 : p.2.length = 3 := hvm p hp
      split_ifs <;> simp [List.length_zipWith, hp3, hc3]
    have hfin : TC.finishRun lines (indices.map (fun x => x - 1)) c =
        .ok (TC.headerOf lines ++ (vs.enumFrom 0).map (fun p =>
          renderA (if (p.1 : ℤ) + 1 ∈ indices then
            (if dotprod p.2 c < TC.normSq c / 2 then List.zipWith (fun u r => u + r) p.2 c
             else List.zipWith (fun u r => u - r) p.2 c)
            else p.2))) := by
      rw [TC.finishRun]
      simp only [hcnt]
      rw [if_neg (by omega)]
      rw [if_neg hcz]
      rw [processAtoms_ok c hc3 (indices.map (fun x => x - 1)) _ 0 vs hvs hv3]
      simp only []
      rw [exceptMapList_format _ hlen3]
      have hcomb : List.map renderA ((vs.enumFrom 0).map (fun p =>
          if (p.1 : ℤ) ∈ indices.map (fun x => x - 1) then
            (if dotprod p.2 c * 2 < TC.normSq c then List.zipWith (fun u r => u + r) p.2 c
             else List.zipWith (fun u r => u - r) p.2 c)
          else p.2)) = (vs.enumFrom 0).map (fun p =>
          renderA (if (p.1 : ℤ) + 1 ∈ indices then
            (if dotprod p.2 c < TC.normSq c / 2 then List.zipWith (fun u r => u + r) p.2 c
             else List.zipWith (fun u r => u - r) p.2 c)
            else p.2)) := by
        rw [List.map_map]
        refine List.map_congr_left (fun p hp => ?_)
        simp only [Function.comp_apply]
        refine congrArg renderA (if_congr ?_ (if_congr ?_ rfl rfl) rfl)
        · constructor
          · intro hmem
            obtain ⟨j, hj, hje⟩ := List.mem_map.mp hmem
            have hj1 : j = (p.1 : ℤ) + 1 := by omega
            rw [← hj1]
            exact hj
          · intro hmem
            exact List.mem_map.mpr ⟨(p.1 : ℤ) + 1, hmem, by ring⟩
        · constructor
          · intro hlt
            linarith
          · intro hlt
            linarith
      rw [hcomb]
    simp only [TC.run]
    rw [if_neg (by omega)]
    simp only [hla, hlb, hlc]
    by_cases hsn : TC.is_atom_count_line (lines.getD 5 "") = true
    · rw [if_pos hsn]
      exact hfin
    · rw [if_neg hsn]
      have h8 : 7 < lines.length := by
        have hcs8 : TC.coordsStartOf lines = 8 := by
          rw [TC.coordsStartOf, if_neg hsn]
        omega
      have hlat : lines[7]? = some lines[7] := List.getElem?_eq_getElem h8
      rw [lineAt]
      simp only [hlat]
      exact hfin
  · intro v1
    have hpos : 0 < TC.normSq c := lt_of_le_of_ne (normSq_nonneg c) (Ne.symm hcz)
    have hposR : (0 : ℝ) < ((TC.normSq c : ℚ) : ℝ) := by exact_mod_cast hpos
    have hs : 0 < Real.sqrt ((TC.normSq c : ℚ) : ℝ) := Real.sqrt_pos.mpr hposR
    rw [div_lt_div_iff₀ hs two_pos, Real.mul_self_sqrt (le_of_lt hposR)]
    constructor
    · intro hlt
      have h2 : dotprod v1 c * 2 < TC.normSq c := by exact_mod_cast hlt
      linarith
    · intro hlt
      have h2 : dotprod v1 c * 2 < TC.normSq c := by linarith
      exact_mod_cast h2

/-- Witness for C1 on the spec §8 round-trip document: atomIndex 2,
targetFraction 3/4, original z values 0 and 1/4. -/
theorem directCShift_correct_witness :
    SD.run C1lines 2 (3 / 4) = .ok (C1hb ++ C1coords.map (fun e =>
      SD.format_vector [e.1.getD 0 0, e.1.getD 1 0, SD.newZ (e.1.getD 2 0) (3 / 4 - 1 / 4)] ++
        (if e.2.isEmpty then "" else " " ++ String.intercalate " " e.2))) ∧
    SD.newZ (1 / 4) (3 / 4 - 1 / 4) = pymod (3 / 4) 1 :=
  directCShift_correct C1lines 2 (3 / 4) C1hb 7 2 "Direct" C1coords (1 / 2) (1 / 2) (1 / 4) []
    (by with_unfolding_all rfl) (by with_unfolding_all rfl) (by with_unfolding_all rfl)
    (by with_unfolding_all rfl) (by with_unfolding_all decide) (by decide) (by decide)
    (by with_unfolding_all rfl)

/-- Witness for C6 on `C6doc`: atom 1 is selected; its projection 1 onto the
c unit vector is below |c|/2 = 5/2, so c is added. -/
theorem periodicTranslate_correct_witness :
    (TC.normSq [0, 0, 5] ≠ 0 ∧ (∀ v ∈ [[(1 : ℚ), 1, 1], [1, 1, 4]], v.length = 3)) ∧
    TC.run C6doc [1] = .ok C6out := by
  constructor
  · exact ⟨by with_unfolding_all decide, by with_unfolding_all decide⟩
  · have h := (periodicTranslate_correct C6doc [1] [5, 0, 0] [0, 5, 0] [0, 0, 5] [2]
      [[1, 1, 1], [1, 1, 4]]
      (by with_unfolding_all decide) (by with_unfolding_all decide)
      (by with_unfolding_all rfl) (by with_unfolding_all rfl) (by with_unfolding_all rfl)
      (by with_unfolding_all rfl) (by with_unfolding_all decide)
      (by with_unfolding_all decide) (by with_unfolding_all decide)
      (by with_unfolding_all rfl) (by with_unfolding_all decide)).1
    exact h.trans (by with_unfolding_all rfl)
